import Mathlib

/-
Verification of the bayespam Bayesian spam classifier
(repository file src/classifier.rs).

Embedding conventions:
- Rust `f32` arithmetic is embedded as exact rational arithmetic over `ℚ`;
  the numeric literals 0.5, 0.99, 0.01 and 0.8 of the source become the exact
  rationals 1/2, 99/100, 1/100 and 4/5.
- Rust `u32` counters are embedded as `ℕ` (training only increments; Rust
  panics on overflow in debug builds, so values below 2^32 coincide with ℕ).
- `HashMap<String, Counter>` is embedded as an association list
  `List (String × Counter)`; `get` returns the first matching entry and
  `entry(..).or_default()` updates the first matching entry in place or
  appends a fresh zero counter.  Lookup, the per-entry sums and membership do
  not depend on iteration order, so the association list is a faithful model
  of the hash map for every property proved below.
- The `unicode-segmentation` crate and `serde_json` are external to the
  repository; they are modelled from the spec (see the doc comments of
  `load_word_list`, `Json`, `Classifier.save` and
  `Classifier.new_from_pre_trained`).
-/

set_option autoImplicit false

/-- Per-token observation counts, mirroring `struct Counter { ham: u32, spam: u32 }`. -/
structure Counter where
  ham : Nat
  spam : Nat
  deriving DecidableEq

/-- The source derives `Default` for `Counter` in the source: both counts start at 0. -/
def Counter.default : Counter := { ham := 0, spam := 0 }

/-- The classifier model, mirroring `struct Classifier` with its token table and
the two cached totals (which serde skips on serialization). -/
structure Classifier where
  token_table : List (String × Counter)
  spam_total_count : Nat
  ham_total_count : Nat
  deriving DecidableEq

/-- Source `Classifier::new`: `Default::default()`, the empty model. -/
def Classifier.new : Classifier :=
  { token_table := [], spam_total_count := 0, ham_total_count := 0 }

/-- Source constant `INITIAL_RATING: f32 = 0.5` as an exact rational. -/
def INITIAL_RATING : ℚ := 1/2

/-- Source constant `SPAM_PROB_THRESHOLD: f32 = 0.8` as an exact rational. -/
def SPAM_PROB_THRESHOLD : ℚ := 4/5

/-- Modelled from the spec: the tokenizer contract of §4.1 (the
`unicode-segmentation` crate used by `load_word_list` is outside this
repository).  `tokenize` splits the text into its constituent words, dropping
punctuation-only segments and whitespace, preserving order.  Word characters
are modelled as the alphanumeric characters, so a token is a maximal
alphanumeric run; this agrees with Unicode word segmentation on the plain
ASCII inputs used in the theorems below. -/
def isWordChar (c : Char) : Bool := c.isAlphanum

/-- Splits a character list into maximal runs of word characters.  The second
argument accumulates the current (reversed) run. -/
def wordsAux : List Char → List Char → List (List Char)
  | [], [] => []
  | [], acc => [acc.reverse]
  | c :: cs, acc =>
      if isWordChar c then wordsAux cs (c :: acc)
      else if acc.isEmpty then wordsAux cs []
      else acc.reverse :: wordsAux cs []

/-- Source `Classifier::load_word_list`: split `msg` into a list of words
(tokenizer modelled from the spec, see `isWordChar`). -/
def load_word_list (msg : String) : List String :=
  (wordsAux msg.toList []).map (fun l => String.mk l)

/-- Source `HashMap::get` on the association-list embedding: first entry whose key
equals `word`. -/
def lookupToken : List (String × Counter) → String → Option Counter
  | [], _ => none
  | (k, cnt) :: rest, word => if k = word then some cnt else lookupToken rest word

/-- The body of the closure in `Classifier::rate_words`, rating one token.
Note on the third branch: Rust computes
`(spam_prob / (ham_prob + spam_prob)).max(0.01)`.  For a stored counter with
both counts zero (reachable via `entry(..).or_default()` only transiently, but
allowed by the type) Rust evaluates `0.0/0.0 = NaN` and `NaN.max(0.01) = 0.01`;
the rational embedding gives `0/0 = 0` and `max (1/100) 0 = 1/100`, the same
value, so the embedding agrees with the source on every counter. -/
def Classifier.rateToken (c : Classifier) (word : String) : ℚ :=
  match lookupToken c.token_table word with
  | some counter =>
      if counter.spam > 0 ∧ counter.ham = 0 then 99/100
      else if counter.spam = 0 ∧ counter.ham > 0 then 1/100
      else if c.spam_total_count > 0 ∧ c.ham_total_count > 0 then
        max (((counter.spam : ℚ) / (c.spam_total_count : ℚ)) /
              ((counter.ham : ℚ) / (c.ham_total_count : ℚ) +
               (counter.spam : ℚ) / (c.spam_total_count : ℚ)))
            (1/100)
      else INITIAL_RATING
  | none => INITIAL_RATING

/-- Source `Classifier::rate_words`: the probability of each word of `msg` to be part
of a spam. -/
def Classifier.rate_words (c : Classifier) (msg : String) : List ℚ :=
  (load_word_list msg).map (fun word => c.rateToken word)

/-- Source `ratings.sort_unstable_by(|a, b| a.partial_cmp(b).unwrap())`: ascending
sort (ratings are never NaN, so `partial_cmp` is the total order on ℚ). -/
def sortRatings (ratings : List ℚ) : List ℚ :=
  List.insertionSort (fun a b => a ≤ b) ratings

/-- Source `[&ratings[..10], &ratings[length - 10..]].concat()` after sorting:
the 10 lowest and the 10 highest ratings. -/
def keepExtremes (ratings : List ℚ) : List ℚ :=
  (sortRatings ratings).take 10 ++ (sortRatings ratings).drop (ratings.length - 10)

/-- The final combination step of `Classifier::score`:
`product / (product + alt_product)`. -/
def combine (ratings : List ℚ) : ℚ :=
  let product : ℚ := ratings.prod
  let alt_product : ℚ := (ratings.map (fun x => 1 - x)).prod
  product / (product + alt_product)

/-- Source `Classifier::score`: compute the spam score of `msg`. -/
def Classifier.score (c : Classifier) (msg : String) : ℚ :=
  let ratings := c.rate_words msg
  if ratings.length = 0 then 0
  else if ratings.length > 20 then combine (keepExtremes ratings)
  else combine ratings

/-- Source `Classifier::identify`: `self.score(msg) > SPAM_PROB_THRESHOLD`. -/
def Classifier.identify (c : Classifier) (msg : String) : Bool :=
  decide (SPAM_PROB_THRESHOLD < c.score msg)

/-- One iteration of the `train_spam` loop: `entry(word).or_default()` then
`counter.spam += 1` (first matching entry updated in place, or a fresh
default counter appended). -/
def addSpamWord : List (String × Counter) → String → List (String × Counter)
  | [], word => [(word, { ham := 0, spam := 1 })]
  | (k, cnt) :: rest, word =>
      if k = word then (k, { cnt with spam := cnt.spam + 1 }) :: rest
      else (k, cnt) :: addSpamWord rest word

/-- One iteration of the `train_ham` loop. -/
def addHamWord : List (String × Counter) → String → List (String × Counter)
  | [], word => [(word, { ham := 1, spam := 0 })]
  | (k, cnt) :: rest, word =>
      if k = word then (k, { cnt with ham := cnt.ham + 1 }) :: rest
      else (k, cnt) :: addHamWord rest word

/-- One loop iteration of `Classifier::train_spam` as a state transformer. -/
def trainSpamWord (c : Classifier) (word : String) : Classifier :=
  { c with token_table := addSpamWord c.token_table word,
           spam_total_count := c.spam_total_count + 1 }

/-- One loop iteration of `Classifier::train_ham` as a state transformer. -/
def trainHamWord (c : Classifier) (word : String) : Classifier :=
  { c with token_table := addHamWord c.token_table word,
           ham_total_count := c.ham_total_count + 1 }

/-- Source `Classifier::train_spam`: train the classifier with a spam `msg`. -/
def Classifier.train_spam (c : Classifier) (msg : String) : Classifier :=
  (load_word_list msg).foldl trainSpamWord c

/-- Source `Classifier::train_ham`: train the classifier with a ham `msg`. -/
def Classifier.train_ham (c : Classifier) (msg : String) : Classifier :=
  (load_word_list msg).foldl trainHamWord c

/-- A finite sequence of training calls: `true` labels a `train_spam` call,
`false` a `train_ham` call. -/
def applyTraining (c : Classifier) : List (Bool × String) → Classifier
  | [] => c
  | (isSpam, msg) :: rest =>
      applyTraining (if isSpam then c.train_spam msg else c.train_ham msg) rest

/-- Source expression `c.token_table.values().map(|x| x.spam).sum()`. -/
def sumSpam (table : List (String × Counter)) : Nat :=
  (table.map (fun e => e.2.spam)).sum

/-- Source expression `c.token_table.values().map(|x| x.ham).sum()`. -/
def sumHam (table : List (String × Counter)) : Nat :=
  (table.map (fun e => e.2.ham)).sum

/-- Modelled from the spec: the textual structured data handled by
`serde_json`, which is outside this repository, as a JSON value tree.
The `pretty` flag of `save` selects indentation in the rendered text only;
both renderings denote the same tree, so streams are modelled at the level of
this tree. -/
inductive Json where
  | null : Json
  | bool (b : Bool) : Json
  | num (n : Nat) : Json
  | str (s : String) : Json
  | arr (xs : List Json) : Json
  | obj (fields : List (String × Json)) : Json

/-- Source `struct ClassifierSerialized`: the classifier model as serialized to disk,
without the two cached totals. -/
structure ClassifierSerialized where
  token_table : List (String × Counter)
  deriving DecidableEq

/-- Source `impl From<ClassifierSerialized> for Classifier`: the totals are
recomputed by summing the table, never read from storage. -/
def classifierFromSerialized (s : ClassifierSerialized) : Classifier :=
  { token_table := s.token_table,
    spam_total_count := sumSpam s.token_table,
    ham_total_count := sumHam s.token_table }

/-- Serialization of one `Counter` (serde emits the fields in declaration
order: `ham` then `spam`). -/
def encodeCounter (cnt : Counter) : Json :=
  Json.obj [("ham", Json.num cnt.ham), ("spam", Json.num cnt.spam)]

/-- Source `Classifier::save`: serde serializes `Classifier` with the two totals
skipped, i.e. a single-field object holding `token_table`.  The `pretty`
flag only changes whitespace in the rendered text (see `Json`), so the
resulting tree does not depend on it. -/
def Classifier.save (c : Classifier) (_pretty : Bool) : Json :=
  Json.obj [("token_table", Json.obj (c.token_table.map
    (fun e => (e.1, encodeCounter e.2))))]

/-- First field of a JSON object with the given name (serde looks fields up
by name). -/
def jsonField : List (String × Json) → String → Option Json
  | [], _ => none
  | (k, v) :: rest, name => if k = name then some v else jsonField rest name

/-- Modelled from the spec: deserialization of one `Counter` record — an
object carrying the two unsigned-integer fields `ham` and `spam` (serde
ignores unknown fields by default). -/
def decodeCounter (j : Json) : Option Counter :=
  match j with
  | Json.obj fields =>
      match jsonField fields ("ham"), jsonField fields ("spam") with
      | some (Json.num h), some (Json.num s) => some { ham := h, spam := s }
      | _, _ => none
  | _ => none

/-- Deserialization of the token table: every value must decode as a
`Counter`. -/
def decodeTable : List (String × Json) → Option (List (String × Counter))
  | [] => some []
  | (k, v) :: rest =>
      match decodeCounter v, decodeTable rest with
      | some cnt, some t => some ((k, cnt) :: t)
      | _, _ => none

/-- Modelled from the spec: deserialization of the persisted shape — a
mapping from token string to a two-unsigned-integer record, wrapped in an
object under the field `token_table`. -/
def decodeClassifierSerialized (j : Json) : Option ClassifierSerialized :=
  match j with
  | Json.obj fields =>
      match jsonField fields ("token_table") with
      | some (Json.obj entries) =>
          match decodeTable entries with
          | some t => some { token_table := t }
          | none => none
      | _ => none
  | _ => none

/-- A readable stream either fails to read (`Except.error`) or yields a
document; `none` stands for content that is not well-formed JSON text,
`some j` for the parsed tree `j`. -/
def decodeDoc (doc : Option Json) : Option ClassifierSerialized :=
  doc.bind decodeClassifierSerialized

/-- The error taxonomy of §7: a stream-level read failure or a content-shape
failure. -/
inductive LoadError where
  | ioError (e : String) : LoadError
  | formatError : LoadError
  deriving DecidableEq

/-- Source `Classifier::new_from_pre_trained`: `from_reader(file)?`.  Modelled from
the spec for the `serde_json::from_reader` part: an unreadable stream yields
the read error, readable content that is not well-formed data of the expected
shape yields a format error, and otherwise the totals are recomputed from the
table via `From<ClassifierSerialized>`. -/
def Classifier.new_from_pre_trained (stream : Except String (Option Json)) :
    Except LoadError Classifier :=
  match stream with
  | Except.error e => Except.error (LoadError.ioError e)
  | Except.ok doc =>
      match decodeDoc doc with
      | none => Except.error LoadError.formatError
      | some s => Except.ok (classifierFromSerialized s)

/-! ### Concrete models used in witnesses and counterexamples -/

/-- A model exhibiting a mixed-count rating above 0.99: the token `a` has one
spam and one ham occurrence, the totals are 1 spam and 1000 ham (token `b`
carries the other 999 ham occurrences), so `spam_freq = 1`,
`ham_freq = 1/1000` and the rating is `1000/1001 > 0.99`. -/
def c1Model : Classifier :=
  { token_table := [(("a"), ⟨1, 1⟩), (("b"), ⟨999, 0⟩)],
    spam_total_count := 1, ham_total_count := 1000 }

/-- A model whose token `bad` occurs only in spam and whose token `good`
occurs only in ham. -/
def c7Model : Classifier :=
  { token_table := [(("good"), ⟨5, 0⟩), (("bad"), ⟨0, 7⟩)],
    spam_total_count := 7, ham_total_count := 5 }

/-- A message of 21 distinct one-letter words. -/
def msg21 : String := "a b c d e f g h i j k l m n o p q r s t u"

/-- The mixed-count token `x` before one extra spam observation. -/
def c9ModelA : Classifier :=
  { token_table := [(("x"), ⟨1, 1⟩)], spam_total_count := 1, ham_total_count := 1 }

/-- The mixed-count token `x` after one extra spam observation. -/
def c9ModelB : Classifier :=
  { token_table := [(("x"), ⟨1, 2⟩)], spam_total_count := 2, ham_total_count := 1 }

/-- The cached totals agree with the per-entry sums over the table. -/
def TotalsInv (c : Classifier) : Prop :=
  c.spam_total_count = sumSpam c.token_table ∧
  c.ham_total_count = sumHam c.token_table

/-! ### Helper lemmas -/

lemma rateToken_eq_of_lookup (c : Classifier) (tok : String) (cnt : Counter)
    (h : lookupToken c.token_table tok = some cnt) :
    c.rateToken tok =
      if cnt.spam > 0 ∧ cnt.ham = 0 then 99/100
      else if cnt.spam = 0 ∧ cnt.ham > 0 then 1/100
      else if c.spam_total_count > 0 ∧ c.ham_total_count > 0 then
        max (((cnt.spam : ℚ) / (c.spam_total_count : ℚ)) /
              ((cnt.ham : ℚ) / (c.ham_total_count : ℚ) +
               (cnt.spam : ℚ) / (c.spam_total_count : ℚ)))
            (1/100)
      else INITIAL_RATING := by
  unfold Classifier.rateToken
  rw [h]

lemma rateToken_eq_of_lookup_none (c : Classifier) (tok : String)
    (h : lookupToken c.token_table tok = none) :
    c.rateToken tok = INITIAL_RATING := by
  unfold Classifier.rateToken
  rw [h]

lemma rateToken_of_nil_table (c : Classifier) (hc : c.token_table = [])
    (tok : String) : c.rateToken tok = 1/2 := by
  rw [rateToken_eq_of_lookup_none c tok (by rw [hc]; rfl)]
  rfl

lemma mem_keepExtremes {ratings : List ℚ} {x : ℚ}
    (h : x ∈ keepExtremes ratings) : x ∈ ratings := by
  unfold keepExtremes at h
  rcases List.mem_append.1 h with h | h
  · exact (List.perm_insertionSort _ _).mem_iff.1 (List.mem_of_mem_take h)
  · exact (List.perm_insertionSort _ _).mem_iff.1 (List.mem_of_mem_drop h)

lemma keepExtremes_length {ratings : List ℚ} (h : ratings.length > 20) :
    (keepExtremes ratings).length = 20 := by
  unfold keepExtremes sortRatings
  rw [List.length_append, List.length_take, List.length_drop,
    List.length_insertionSort]
  omega

lemma combine_const_half (l : List ℚ)
    (hall : ∀ x ∈ l, x = 1/2) : combine l = 1/2 := by
  unfold combine
  have h1 : l.prod = (1/2 : ℚ) ^ l.length := List.prod_eq_pow_card l _ hall
  have h2 : (l.map (fun x => 1 - x)).prod = (1/2 : ℚ) ^ l.length := by
    rw [List.prod_eq_pow_card _ (1/2 : ℚ), List.length_map]
    intro x hx
    rcases List.mem_map.1 hx with ⟨y, hy, hxy⟩
    rw [← hxy, hall y hy]
    norm_num
  rw [h1, h2]
  have hp : (0:ℚ) < (1/2 : ℚ) ^ l.length := by positivity
  rw [div_eq_iff (by positivity)]
  ring

lemma score_all_half (c : Classifier) (msg : String)
    (hall : ∀ x ∈ c.rate_words msg, x = (1/2 : ℚ))
    (hne : load_word_list msg ≠ []) : c.score msg = 1/2 := by
  unfold Classifier.score
  have hlen : (c.rate_words msg).length ≠ 0 := by
    unfold Classifier.rate_words
    simpa using hne
  by_cases h20 : (c.rate_words msg).length > 20
  · simp only [if_neg hlen, if_pos h20]
    exact combine_const_half _ (fun x hx => hall x (mem_keepExtremes hx))
  · simp only [if_neg hlen, if_neg h20]
    exact combine_const_half _ hall

lemma score_empty_words (c : Classifier) (msg : String)
    (h : load_word_list msg = []) : c.score msg = 0 := by
  unfold Classifier.score Classifier.rate_words
  rw [h]
  simp

/-! ### C1 -/

/-- C1: counterexample.  In `c1Model` the token `a` is present with both
counts positive and both totals positive, yet its rating is `1000/1001`,
which exceeds `0.99` (and differs from the initial value `0.5`), so the
per-token rating is not confined to `[0.01, 0.99] ∪ {0.5}`. -/
theorem c1_rating_range_counterexample :
    c1Model.rateToken ("a") = 1000/1001 ∧
    ¬ (c1Model.rateToken ("a") ≤ 99/100) ∧
    c1Model.rateToken ("a") ≠ INITIAL_RATING := by
  have ha : c1Model.rateToken ("a") = 1000/1001 := by
    norm_num [Classifier.rateToken, lookupToken, c1Model]
  refine ⟨ha, ?_, ?_⟩
  · rw [ha]; norm_num
  · rw [ha]; norm_num [INITIAL_RATING]

/-- C1 (amended): for every model and every token, the per-token rating
(the closure body of `rate_words` applied to one token) is either the fixed
initial value `0.5` or lies in the half-open interval `[0.01, 1)`; the
mixed-count value `max(0.01, spam_freq / (ham_freq + spam_freq))` is always
strictly below 1 but can exceed 0.99. -/
theorem c1_rating_range_amended (c : Classifier) (tok : String) :
    c.rateToken tok = INITIAL_RATING ∨
    (1/100 ≤ c.rateToken tok ∧ c.rateToken tok < 1) := by
  cases hl : lookupToken c.token_table tok with
  | none => exact Or.inl (rateToken_eq_of_lookup_none c tok hl)
  | some counter =>
    rw [rateToken_eq_of_lookup c tok counter hl]
    by_cases h1 : counter.spam > 0 ∧ counter.ham = 0
    · right
      rw [if_pos h1]
      norm_num
    · by_cases h2 : counter.spam = 0 ∧ counter.ham > 0
      · right
        rw [if_neg h1, if_pos h2]
        norm_num
      · by_cases h3 : c.spam_total_count > 0 ∧ c.ham_total_count > 0
        · right
          rw [if_neg h1, if_neg h2, if_pos h3]
          refine ⟨le_max_right _ _, max_lt ?_ (by norm_num)⟩
          by_cases hs : counter.spam = 0
          · have hh : counter.ham = 0 := by
              by_contra hh
              exact h2 ⟨hs, Nat.pos_of_ne_zero hh⟩
            rw [hs, hh]
            norm_num
          · have hsp : 0 < counter.spam := Nat.pos_of_ne_zero hs
            have hh : counter.ham ≠ 0 := fun hh => h1 ⟨hsp, hh⟩
            have hsf : (0:ℚ) < (counter.spam : ℚ) / (c.spam_total_count : ℚ) :=
              div_pos (by exact_mod_cast hsp) (by exact_mod_cast h3.1)
            have hhf : (0:ℚ) < (counter.ham : ℚ) / (c.ham_total_count : ℚ) :=
              div_pos (by exact_mod_cast Nat.pos_of_ne_zero hh)
                (by exact_mod_cast h3.2)
            rw [div_lt_one (by linarith)]
            linarith
        · left
          rw [if_neg h1, if_neg h2, if_neg h3]

/-! ### C2 -/

/-- C2: counterexample.  The string consisting of the single character `!` is
non-empty, but on the empty model its score is `0`, not `0.5`: it tokenizes
to the empty word list, so `score` takes the empty-ratings early return. -/
theorem c2_empty_table_counterexample :
    ("!") ≠ ("") ∧ Classifier.new.token_table = [] ∧
    Classifier.new.score ("!") = 0 ∧ (0 : ℚ) ≠ 1/2 := by
  refine ⟨by decide, rfl, by decide, by norm_num⟩

/-- C2 (amended): for every model with an empty token table, every message
with at least one token scores exactly `0.5`, and `identify` returns `false`
on every message (a message with no tokens scores `0`, which also stays below
the `0.8` threshold).  The original claim fails only for non-empty strings
that tokenize to no words. -/
theorem c2_empty_table_score (c : Classifier) (msg : String)
    (hc : c.token_table = []) :
    (load_word_list msg ≠ [] → c.score msg = 1/2) ∧ c.identify msg = false := by
  have hall : ∀ x ∈ c.rate_words msg, x = (1/2 : ℚ) := by
    intro x hx
    rcases List.mem_map.1 hx with ⟨w, _, hxw⟩
    rw [← hxw]
    exact rateToken_of_nil_table c hc w
  constructor
  · intro hne
    exact score_all_half c msg hall hne
  · unfold Classifier.identify
    by_cases hne : load_word_list msg = []
    · rw [score_empty_words c msg hne]
      norm_num [SPAM_PROB_THRESHOLD]
    · rw [score_all_half c msg hall hne]
      norm_num [SPAM_PROB_THRESHOLD]

/-- C2: witness — the amended theorem applied to the empty model and the
message `hello world`. -/
theorem c2_empty_table_score_witness :
    Classifier.new.score ("hello world") = 1/2 ∧
    Classifier.new.identify ("hello world") = false :=
  ⟨(c2_empty_table_score Classifier.new ("hello world") rfl).1 (by decide),
   (c2_empty_table_score Classifier.new ("hello world") rfl).2⟩

/-! ### C7 -/

/-- C7: for every model, a token present in the table with positive spam
count and zero ham count rates exactly `0.99`, and one with zero spam count
and positive ham count rates exactly `0.01`, whatever the totals are. -/
theorem c7_one_sided_tokens (c : Classifier) (tok : String) (cnt : Counter)
    (h : lookupToken c.token_table tok = some cnt) :
    (0 < cnt.spam → cnt.ham = 0 → c.rateToken tok = 99/100) ∧
    (cnt.spam = 0 → 0 < cnt.ham → c.rateToken tok = 1/100) := by
  rw [rateToken_eq_of_lookup c tok cnt h]
  constructor
  · intro h1 h2
    rw [if_pos ⟨h1, h2⟩]
  · intro h1 h2
    have hn : ¬ (cnt.spam > 0 ∧ cnt.ham = 0) := by omega
    rw [if_neg hn, if_pos ⟨h1, h2⟩]

/-- C7: witness — in `c7Model`, `bad` rates exactly `0.99` and `good` rates
exactly `0.01`. -/
theorem c7_one_sided_tokens_witness :
    c7Model.rateToken ("bad") = 99/100 ∧ c7Model.rateToken ("good") = 1/100 :=
  ⟨(c7_one_sided_tokens c7Model ("bad") ⟨0, 7⟩ (by decide)).1 (by decide) rfl,
   (c7_one_sided_tokens c7Model ("good") ⟨5, 0⟩ (by decide)).2 rfl (by decide)⟩

/-! ### C8 -/

/-- C8: for every model, a message whose word list is empty scores exactly
`0`. -/
theorem c8_score_no_tokens (c : Classifier) (msg : String)
    (h : load_word_list msg = []) : c.score msg = 0 :=
  score_empty_words c msg h

/-- C8: witness — the empty string and a punctuation/whitespace-only string
tokenize to no words and score `0` on a trained model. -/
theorem c8_score_no_tokens_witness :
    load_word_list ("") = [] ∧ load_word_list ("?! ,. ") = [] ∧
    c7Model.score ("") = 0 ∧ c7Model.score ("?! ,. ") = 0 :=
  ⟨by decide, by decide,
   c8_score_no_tokens c7Model ("") (by decide),
   c8_score_no_tokens c7Model ("?! ,. ") (by decide)⟩

/-! ### C6 -/

/-- C6: for every model and message with strictly more than 20 per-token
ratings, `score` is the combination `product / (product + complement_product)`
over the retained list, and the retained list is exactly the first 10 and the
last 10 elements of the ascending sort of the ratings (20 elements in total);
the sort is genuinely an ascending reordering: it is `≤`-sorted and a
permutation of the ratings. -/
theorem c6_truncation (c : Classifier) (msg : String)
    (h : (c.rate_words msg).length > 20) :
    c.score msg = combine (keepExtremes (c.rate_words msg)) ∧
    keepExtremes (c.rate_words msg) =
      (sortRatings (c.rate_words msg)).take 10 ++
      (sortRatings (c.rate_words msg)).drop ((c.rate_words msg).length - 10) ∧
    (keepExtremes (c.rate_words msg)).length = 20 ∧
    List.Sorted (fun a b => a ≤ b) (sortRatings (c.rate_words msg)) ∧
    (sortRatings (c.rate_words msg)).Perm (c.rate_words msg) := by
  refine ⟨?_, rfl, keepExtremes_length h, List.sorted_insertionSort _ _,
    List.perm_insertionSort _ _⟩
  unfold Classifier.score
  rw [if_neg (by omega), if_pos h]

/-- C6: witness — the truncation theorem applied to the empty model and a
21-word message. -/
theorem c6_truncation_witness :
    (Classifier.new.rate_words msg21).length > 20 ∧
    (Classifier.new.score msg21 = combine (keepExtremes (Classifier.new.rate_words msg21)) ∧
     keepExtremes (Classifier.new.rate_words msg21) =
       (sortRatings (Classifier.new.rate_words msg21)).take 10 ++
       (sortRatings (Classifier.new.rate_words msg21)).drop
         ((Classifier.new.rate_words msg21).length - 10) ∧
     (keepExtremes (Classifier.new.rate_words msg21)).length = 20 ∧
     List.Sorted (fun a b => a ≤ b) (sortRatings (Classifier.new.rate_words msg21)) ∧
     (sortRatings (Classifier.new.rate_words msg21)).Perm (Classifier.new.rate_words msg21)) :=
  ⟨by decide, c6_truncation Classifier.new msg21 (by decide)⟩

/-! ### C9 -/

/-- C9: monotonicity of the mixed-count rating.  `c` and `c2` are the model
before and after the spam count of the token strictly increases from `cnt.spam`
to `cnt2.spam` with the ham data fixed; the spam total grows by exactly the
same amount (the counts of all other tokens fixed), and `cnt.spam ≤ spam_total`
records that the occurrences of the token are part of the total.  The rating of
the token is then non-decreasing. -/
theorem c9_mixed_rating_monotone (c c2 : Classifier) (tok : String)
    (cnt cnt2 : Counter)
    (h1 : lookupToken c.token_table tok = some cnt)
    (h2 : lookupToken c2.token_table tok = some cnt2)
    (hham : cnt2.ham = cnt.ham)
    (hspam : cnt.spam < cnt2.spam)
    (hhp : 0 < cnt.ham) (hsp : 0 < cnt.spam)
    (hht : c2.ham_total_count = c.ham_total_count)
    (hht0 : 0 < c.ham_total_count)
    (hst : c2.spam_total_count = c.spam_total_count + (cnt2.spam - cnt.spam))
    (hbound : cnt.spam ≤ c.spam_total_count) :
    c.rateToken tok ≤ c2.rateToken tok := by
  have hst0 : 0 < c.spam_total_count := lt_of_lt_of_le hsp hbound
  have hst0' : 0 < c2.spam_total_count := by omega
  rw [rateToken_eq_of_lookup c tok cnt h1, rateToken_eq_of_lookup c2 tok cnt2 h2]
  have hc1 : ¬ (cnt.spam > 0 ∧ cnt.ham = 0) := by omega
  have hc2 : ¬ (cnt.spam = 0 ∧ cnt.ham > 0) := by omega
  have hd1 : ¬ (cnt2.spam > 0 ∧ cnt2.ham = 0) := by omega
  have hd2 : ¬ (cnt2.spam = 0 ∧ cnt2.ham > 0) := by omega
  rw [if_neg hc1, if_neg hc2, if_pos ⟨hst0, hht0⟩, if_neg hd1, if_neg hd2,
    if_pos ⟨hst0', by omega⟩]
  apply max_le_max _ le_rfl
  rw [hham, hht]
  have hfpos : 0 < (cnt.ham : ℚ) / (c.ham_total_count : ℚ) :=
    div_pos (by exact_mod_cast hhp) (by exact_mod_cast hht0)
  have hsf0 : 0 ≤ (cnt.spam : ℚ) / (c.spam_total_count : ℚ) := by positivity
  have hsf0' : 0 ≤ (cnt2.spam : ℚ) / (c2.spam_total_count : ℚ) := by positivity
  have hsfle : (cnt.spam : ℚ) / (c.spam_total_count : ℚ) ≤
      (cnt2.spam : ℚ) / (c2.spam_total_count : ℚ) := by
    rw [div_le_div_iff₀ (by exact_mod_cast hst0) (by exact_mod_cast hst0')]
    have hcast : ((cnt2.spam : ℚ) - cnt.spam) = ((cnt2.spam - cnt.spam : ℕ) : ℚ) := by
      have : cnt.spam ≤ cnt2.spam := le_of_lt hspam
      push_cast [Nat.cast_sub this]
      ring
    have hTcast : (c2.spam_total_count : ℚ) =
        (c.spam_total_count : ℚ) + ((cnt2.spam - cnt.spam : ℕ) : ℚ) := by
      exact_mod_cast hst
    have hsle : (cnt.spam : ℚ) ≤ (c.spam_total_count : ℚ) := by exact_mod_cast hbound
    have hdpos : (0:ℚ) ≤ ((cnt2.spam - cnt.spam : ℕ) : ℚ) := by positivity
    have hs2 : (cnt2.spam : ℚ) = (cnt.spam : ℚ) + ((cnt2.spam - cnt.spam : ℕ) : ℚ) := by
      rw [← hcast]; ring
    rw [hTcast, hs2]
    nlinarith [mul_nonneg (sub_nonneg.2 hsle) hdpos]
  rw [div_le_div_iff₀ (by linarith) (by linarith)]
  nlinarith [mul_le_mul_of_nonneg_right hsfle hfpos.le]

/-- C9: witness — the monotonicity theorem applied to the concrete step from
`c9ModelA` to `c9ModelB`. -/
theorem c9_mixed_rating_monotone_witness :
    c9ModelA.rateToken ("x") ≤ c9ModelB.rateToken ("x") :=
  c9_mixed_rating_monotone c9ModelA c9ModelB ("x") ⟨1, 1⟩ ⟨1, 2⟩
    (by decide) (by decide) rfl (by decide) (by decide) (by decide)
    rfl (by decide) rfl (by decide)

/-! ### C10 -/

lemma lookup_addSpamWord_ham :
    ∀ (table : List (String × Counter)) (word tok : String) (cnt : Counter),
      lookupToken table tok = some cnt →
      ∃ cnt2, lookupToken (addSpamWord table word) tok = some cnt2 ∧
        cnt2.ham = cnt.ham := by
  intro table
  induction table with
  | nil => intro word tok cnt h; simp [lookupToken] at h
  | cons e rest ih =>
    intro word tok cnt h
    obtain ⟨k, c0⟩ := e
    by_cases hkw : k = word
    · subst hkw
      rw [show addSpamWord ((k, c0) :: rest) k =
          (k, { c0 with spam := c0.spam + 1 }) :: rest by
        simp [addSpamWord]]
      by_cases hkt : k = tok
      · rw [lookupToken, if_pos hkt]
        rw [lookupToken, if_pos hkt] at h
        exact ⟨_, rfl, by injection h with h0; rw [← h0]⟩
      · rw [lookupToken, if_neg hkt]
        rw [lookupToken, if_neg hkt] at h
        exact ⟨cnt, h, rfl⟩
    · rw [show addSpamWord ((k, c0) :: rest) word =
          (k, c0) :: addSpamWord rest word by simp [addSpamWord, hkw]]
      by_cases hkt : k = tok
      · rw [lookupToken, if_pos hkt]
        rw [lookupToken, if_pos hkt] at h
        exact ⟨c0, rfl, by injection h with h0; rw [← h0]⟩
      · rw [lookupToken, if_neg hkt]
        rw [lookupToken, if_neg hkt] at h
        exact ih word tok cnt h

lemma lookup_addHamWord_spam :
    ∀ (table : List (String × Counter)) (word tok : String) (cnt : Counter),
      lookupToken table tok = some cnt →
      ∃ cnt2, lookupToken (addHamWord table word) tok = some cnt2 ∧
        cnt2.spam = cnt.spam := by
  intro table
  induction table with
  | nil => intro word tok cnt h; simp [lookupToken] at h
  | cons e rest ih =>
    intro word tok cnt h
    obtain ⟨k, c0⟩ := e
    by_cases hkw : k = word
    · subst hkw
      rw [show addHamWord ((k, c0) :: rest) k =
          (k, { c0 with ham := c0.ham + 1 }) :: rest by
        simp [addHamWord]]
      by_cases hkt : k = tok
      · rw [lookupToken, if_pos hkt]
        rw [lookupToken, if_pos hkt] at h
        exact ⟨_, rfl, by injection h with h0; rw [← h0]⟩
      · rw [lookupToken, if_neg hkt]
        rw [lookupToken, if_neg hkt] at h
        exact ⟨cnt, h, rfl⟩
    · rw [show addHamWord ((k, c0) :: rest) word =
          (k, c0) :: addHamWord rest word by simp [addHamWord, hkw]]
      by_cases hkt : k = tok
      · rw [lookupToken, if_pos hkt]
        rw [lookupToken, if_pos hkt] at h
        exact ⟨c0, rfl, by injection h with h0; rw [← h0]⟩
      · rw [lookupToken, if_neg hkt]
        rw [lookupToken, if_neg hkt] at h
        exact ih word tok cnt h

lemma foldl_trainSpamWord_ham_total :
    ∀ (words : List String) (c : Classifier),
      (words.foldl trainSpamWord c).ham_total_count = c.ham_total_count := by
  intro words
  induction words with
  | nil => intro c; rfl
  | cons w rest ih => intro c; rw [List.foldl_cons, ih]; rfl

lemma foldl_trainHamWord_spam_total :
    ∀ (words : List String) (c : Classifier),
      (words.foldl trainHamWord c).spam_total_count = c.spam_total_count := by
  intro words
  induction words with
  | nil => intro c; rfl
  | cons w rest ih => intro c; rw [List.foldl_cons, ih]; rfl

lemma foldl_trainSpamWord_ham_lookup :
    ∀ (words : List String) (c : Classifier) (tok : String) (cnt : Counter),
      lookupToken c.token_table tok = some cnt →
      ∃ cnt2, lookupToken (words.foldl trainSpamWord c).token_table tok = some cnt2 ∧
        cnt2.ham = cnt.ham := by
  intro words
  induction words with
  | nil => intro c tok cnt h; exact ⟨cnt, h, rfl⟩
  | cons w rest ih =>
    intro c tok cnt h
    obtain ⟨cnt1, h1, hh1⟩ := lookup_addSpamWord_ham c.token_table w tok cnt h
    obtain ⟨cnt2, h2, hh2⟩ := ih (trainSpamWord c w) tok cnt1 h1
    exact ⟨cnt2, h2, by rw [hh2, hh1]⟩

lemma foldl_trainHamWord_spam_lookup :
    ∀ (words : List String) (c : Classifier) (tok : String) (cnt : Counter),
      lookupToken c.token_table tok = some cnt →
      ∃ cnt2, lookupToken (words.foldl trainHamWord c).token_table tok = some cnt2 ∧
        cnt2.spam = cnt.spam := by
  intro words
  induction words with
  | nil => intro c tok cnt h; exact ⟨cnt, h, rfl⟩
  | cons w rest ih =>
    intro c tok cnt h
    obtain ⟨cnt1, h1, hh1⟩ := lookup_addHamWord_spam c.token_table w tok cnt h
    obtain ⟨cnt2, h2, hh2⟩ := ih (trainHamWord c w) tok cnt1 h1
    exact ⟨cnt2, h2, by rw [hh2, hh1]⟩

/-- C10: frame effect of training.  `train_spam` leaves the ham total and the
ham field of every counter already present untouched, and symmetrically
`train_ham` leaves the spam total and the spam field of every present counter
untouched. -/
theorem c10_train_frame (c : Classifier) (msg : String) :
    ((c.train_spam msg).ham_total_count = c.ham_total_count ∧
     ∀ tok cnt, lookupToken c.token_table tok = some cnt →
       ∃ cnt2, lookupToken (c.train_spam msg).token_table tok = some cnt2 ∧
         cnt2.ham = cnt.ham) ∧
    ((c.train_ham msg).spam_total_count = c.spam_total_count ∧
     ∀ tok cnt, lookupToken c.token_table tok = some cnt →
       ∃ cnt2, lookupToken (c.train_ham msg).token_table tok = some cnt2 ∧
         cnt2.spam = cnt.spam) :=
  ⟨⟨foldl_trainSpamWord_ham_total (load_word_list msg) c,
    fun tok cnt h => foldl_trainSpamWord_ham_lookup (load_word_list msg) c tok cnt h⟩,
   ⟨foldl_trainHamWord_spam_total (load_word_list msg) c,
    fun tok cnt h => foldl_trainHamWord_spam_lookup (load_word_list msg) c tok cnt h⟩⟩

/-- C10: witness — training `c7Model` on the message `bad news` changes no
ham data under `train_spam` and no spam data under `train_ham`. -/
theorem c10_train_frame_witness :
    ((c7Model.train_spam ("bad news")).ham_total_count = c7Model.ham_total_count ∧
     ∃ cnt2, lookupToken (c7Model.train_spam ("bad news")).token_table ("good") =
       some cnt2 ∧ cnt2.ham = 5) ∧
    ((c7Model.train_ham ("bad news")).spam_total_count = c7Model.spam_total_count ∧
     ∃ cnt2, lookupToken (c7Model.train_ham ("bad news")).token_table ("bad") =
       some cnt2 ∧ cnt2.spam = 7) :=
  ⟨⟨(c10_train_frame c7Model ("bad news")).1.1,
    (c10_train_frame c7Model ("bad news")).1.2 ("good") ⟨5, 0⟩ (by decide)⟩,
   ⟨(c10_train_frame c7Model ("bad news")).2.1,
    (c10_train_frame c7Model ("bad news")).2.2 ("bad") ⟨0, 7⟩ (by decide)⟩⟩

/-! ### C4 -/

lemma sumSpam_addSpamWord :
    ∀ (table : List (String × Counter)) (word : String),
      sumSpam (addSpamWord table word) = sumSpam table + 1 := by
  intro table
  induction table with
  | nil => intro word; rfl
  | cons e rest ih =>
    intro word
    obtain ⟨k, c0⟩ := e
    by_cases hkw : k = word
    · simp [addSpamWord, hkw, sumSpam]
      omega
    · simp [addSpamWord, hkw, sumSpam] at ih ⊢
      rw [ih]
      omega

lemma sumHam_addSpamWord :
    ∀ (table : List (String × Counter)) (word : String),
      sumHam (addSpamWord table word) = sumHam table := by
  intro table
  induction table with
  | nil => intro word; rfl
  | cons e rest ih =>
    intro word
    obtain ⟨k, c0⟩ := e
    by_cases hkw : k = word
    · simp [addSpamWord, hkw, sumHam]
    · simp [addSpamWord, hkw, sumHam] at ih ⊢
      rw [ih]

lemma sumHam_addHamWord :
    ∀ (table : List (String × Counter)) (word : String),
      sumHam (addHamWord table word) = sumHam table + 1 := by
  intro table
  induction table with
  | nil => intro word; rfl
  | cons e rest ih =>
    intro word
    obtain ⟨k, c0⟩ := e
    by_cases hkw : k = word
    · simp [addHamWord, hkw, sumHam]
      omega
    · simp [addHamWord, hkw, sumHam] at ih ⊢
      rw [ih]
      omega

lemma sumSpam_addHamWord :
    ∀ (table : List (String × Counter)) (word : String),
      sumSpam (addHamWord table word) = sumSpam table := by
  intro table
  induction table with
  | nil => intro word; rfl
  | cons e rest ih =>
    intro word
    obtain ⟨k, c0⟩ := e
    by_cases hkw : k = word
    · simp [addHamWord, hkw, sumSpam]
    · simp [addHamWord, hkw, sumSpam] at ih ⊢
      rw [ih]

lemma totalsInv_trainSpamWord {c : Classifier} (h : TotalsInv c) (w : String) :
    TotalsInv (trainSpamWord c w) := by
  constructor
  · show c.spam_total_count + 1 = sumSpam (addSpamWord c.token_table w)
    rw [sumSpam_addSpamWord, h.1]
  · show c.ham_total_count = sumHam (addSpamWord c.token_table w)
    rw [sumHam_addSpamWord]
    exact h.2

lemma totalsInv_trainHamWord {c : Classifier} (h : TotalsInv c) (w : String) :
    TotalsInv (trainHamWord c w) := by
  constructor
  · show c.spam_total_count = sumSpam (addHamWord c.token_table w)
    rw [sumSpam_addHamWord]
    exact h.1
  · show c.ham_total_count + 1 = sumHam (addHamWord c.token_table w)
    rw [sumHam_addHamWord, h.2]

lemma totalsInv_foldl_trainSpamWord :
    ∀ (words : List String) {c : Classifier}, TotalsInv c →
      TotalsInv (words.foldl trainSpamWord c) := by
  intro words
  induction words with
  | nil => intro c h; exact h
  | cons w rest ih => intro c h; exact ih (totalsInv_trainSpamWord h w)

lemma totalsInv_foldl_trainHamWord :
    ∀ (words : List String) {c : Classifier}, TotalsInv c →
      TotalsInv (words.foldl trainHamWord c) := by
  intro words
  induction words with
  | nil => intro c h; exact h
  | cons w rest ih => intro c h; exact ih (totalsInv_trainHamWord h w)

lemma totalsInv_applyTraining :
    ∀ (ops : List (Bool × String)) {c : Classifier}, TotalsInv c →
      TotalsInv (applyTraining c ops) := by
  intro ops
  induction ops with
  | nil => intro c h; exact h
  | cons op rest ih =>
    intro c h
    obtain ⟨isSpam, msg⟩ := op
    cases isSpam with
    | true => exact ih (totalsInv_foldl_trainSpamWord (load_word_list msg) h)
    | false => exact ih (totalsInv_foldl_trainHamWord (load_word_list msg) h)

/-- C4: after any finite sequence of `train_spam`/`train_ham` calls starting
from the freshly constructed empty model, the cached `spam_total_count` and
`ham_total_count` equal the sums of the respective counter fields over the
token table, and the same equalities hold for any model reconstructed from a
persisted table (the `From<ClassifierSerialized>` conversion recomputes the
totals from the table). -/
theorem c4_totals_invariant :
    (∀ ops : List (Bool × String),
       (applyTraining Classifier.new ops).spam_total_count =
         sumSpam (applyTraining Classifier.new ops).token_table ∧
       (applyTraining Classifier.new ops).ham_total_count =
         sumHam (applyTraining Classifier.new ops).token_table) ∧
    (∀ s : ClassifierSerialized,
       (classifierFromSerialized s).spam_total_count =
         sumSpam (classifierFromSerialized s).token_table ∧
       (classifierFromSerialized s).ham_total_count =
         sumHam (classifierFromSerialized s).token_table) :=
  ⟨fun ops => totalsInv_applyTraining ops ⟨rfl, rfl⟩, fun _ => ⟨rfl, rfl⟩⟩

/-! ### C5 -/

lemma new_from_pre_trained_ok (doc : Option Json) :
    Classifier.new_from_pre_trained (Except.ok doc) =
      match decodeDoc doc with
      | none => Except.error LoadError.formatError
      | some s => Except.ok (classifierFromSerialized s) := rfl

lemma new_from_pre_trained_error (e : String) :
    Classifier.new_from_pre_trained (Except.error e) =
      Except.error (LoadError.ioError e) := rfl

lemma decodeCounter_encodeCounter (cnt : Counter) :
    decodeCounter (encodeCounter cnt) = some cnt := rfl

lemma decodeTable_encodeTable (table : List (String × Counter)) :
    decodeTable (table.map (fun e => (e.1, encodeCounter e.2))) = some table := by
  induction table with
  | nil => rfl
  | cons e rest ih =>
    rw [List.map_cons, decodeTable, decodeCounter_encodeCounter, ih]

/-- C5: round trip.  For every model and either value of the `pretty` flag,
loading the saved form succeeds and yields a model whose token table equals
that of the original and whose cached totals are the sums of the corresponding
counter fields over that table. -/
theorem c5_save_load_round_trip (c : Classifier) (pretty : Bool) :
    ∃ c2, Classifier.new_from_pre_trained (Except.ok (some (c.save pretty))) =
        Except.ok c2 ∧
      c2.token_table = c.token_table ∧
      c2.spam_total_count = sumSpam c2.token_table ∧
      c2.ham_total_count = sumHam c2.token_table := by
  refine ⟨classifierFromSerialized ⟨c.token_table⟩, ?_, rfl, rfl, rfl⟩
  have hdec : decodeClassifierSerialized (c.save pretty) =
      some ⟨c.token_table⟩ := by
    simp only [Classifier.save, decodeClassifierSerialized, jsonField,
      if_true, decodeTable_encodeTable]
  rw [new_from_pre_trained_ok]
  unfold decodeDoc
  rw [Option.some_bind, hdec]

/-! ### C3 -/

/-- C3: loading fails with `formatError` when the stream is readable but its
content does not decode as the persisted shape, fails with `ioError e` when
the stream cannot be read, and the two failure kinds are distinct
constructors, hence distinguishable by the caller. -/
theorem c3_load_error_taxonomy (stream : Except String (Option Json)) :
    (∀ e, stream = Except.error e →
      Classifier.new_from_pre_trained stream =
        Except.error (LoadError.ioError e)) ∧
    (∀ doc, stream = Except.ok doc → decodeDoc doc = none →
      Classifier.new_from_pre_trained stream =
        Except.error LoadError.formatError) ∧
    (∀ e, LoadError.ioError e ≠ LoadError.formatError) := by
  refine ⟨?_, ?_, ?_⟩
  · intro e he
    rw [he, new_from_pre_trained_error]
  · intro doc hd hdec
    rw [hd, new_from_pre_trained_ok, hdec]
  · intro e h
    exact LoadError.noConfusion h

/-- C3: witness — an unreadable stream yields the io error, while readable
content that is not JSON (`none`) or is JSON of the wrong shape (a bare
number) yields the format error. -/
theorem c3_load_error_taxonomy_witness :
    Classifier.new_from_pre_trained (Except.error ("read failure")) =
      Except.error (LoadError.ioError ("read failure")) ∧
    Classifier.new_from_pre_trained (Except.ok (some (Json.num 3))) =
      Except.error LoadError.formatError ∧
    Classifier.new_from_pre_trained (Except.ok none) =
      Except.error LoadError.formatError ∧
    LoadError.ioError ("read failure") ≠ LoadError.formatError :=
  ⟨(c3_load_error_taxonomy (Except.error ("read failure"))).1 _ rfl,
   (c3_load_error_taxonomy (Except.ok (some (Json.num 3)))).2.1 _ rfl rfl,
   (c3_load_error_taxonomy (Except.ok none)).2.1 _ rfl rfl,
   (c3_load_error_taxonomy (Except.error ("read failure"))).2.2 _⟩
